import Mathlib

/-!
Verification of the AI budget-prediction service (`ai-service/app.py`).

The development shallowly embeds the prediction core of
`AdvancedBudgetPredictor` in Lean:

* the per-category decision policy of `predict_with_ml`
  (lines 935-1254 of `app.py`), including the per-category exception
  behaviour of the whole-request `try`/`except`;
* the feature engineering of `engineer_features` (lines 302-442),
  including `_calculate_trend`;
* `_classify_trend` and the confidence clamping;
* the result shape of `get_peer_recommendations` (lines 807-886), with the
  SQL aggregate modelled by its relational meaning over an explicit list of
  qualifying peer budget rows.

Modelling conventions:

* Python floats are modelled by exact rationals (`ℚ`).  All thresholds and
  blend ratios in the source are short decimal literals (0.02, 0.5, 0.95,
  1.02, ...), written here as the corresponding rationals.
* `numpy`/`pandas` standard deviations appear in the source only through
  `model_agreement` (population std of exactly two model outputs, which is
  `|a - b| / 2`, exact) and through feature fields (`historical_std`,
  `spending_volatility`).  The feature fields are carried as their squares
  (sample variance, `ddof = 1`), which determine the source's value; the
  pandas `NaN` that `.std()` yields on a singleton series is carried as
  `none`.
* Trained `sklearn` models cannot be embedded; their per-category outputs
  (already filtered by the source to finite, non-negative values at lines
  1004-1014) enter the decision policy as opaque optional rationals, one
  for the ridge model and one for the forest model, exactly as
  `predictions_dict` does.
* Python `int()` truncation toward zero is `pyTrunc`.
* The `ZeroDivisionError` in the accurate-budgeter ratio check
  (line 1096, `spending_historical_avg / budget_historical_avg` with a
  zero denominator) is modelled by `Except`: the per-category step throws
  exactly when the source would raise, and `predictWithML` maps any such
  throw to the empty prediction list, as the outermost handler
  (lines 1252-1254) does.
-/

/-- Mean of a list of rationals (`np.mean` / pandas `.mean()`); the source
only applies it to non-empty series, `0` is returned for `[]`. -/
def meanQ (l : List ℚ) : ℚ :=
  if l = [] then 0 else l.sum / l.length

/-- Minimum of a list of rationals (pandas `.min()` on a non-empty series). -/
def listMinQ : List ℚ → ℚ
  | [] => 0
  | x :: xs => xs.foldl min x

/-- Maximum of a list of rationals (pandas `.max()` on a non-empty series). -/
def listMaxQ : List ℚ → ℚ
  | [] => 0
  | x :: xs => xs.foldl max x

/-- Sample variance with `ddof = 1` (the square of pandas `.std()`),
meaningful for series of length at least 2. -/
def sampleVarQ (l : List ℚ) : ℚ :=
  ((l.map (fun x => (x - meanQ l) ^ 2)).sum) / ((l.length : ℚ) - 1)

/-- `_calculate_trend` (app.py lines 444-450): least-squares slope of the
index-vs-value regression `stats.linregress(range(n), values)`; `0` for
fewer than two points. -/
def trendSlope (ys : List ℚ) : ℚ :=
  if ys.length < 2 then 0
  else
    let xs : List ℚ := (List.range ys.length).map (fun i => (i : ℚ))
    let xbar := meanQ xs
    let ybar := meanQ ys
    let num := ((xs.zip ys).map (fun p => (p.1 - xbar) * (p.2 - ybar))).sum
    let den := (xs.map (fun x => (x - xbar) ^ 2)).sum
    num / den

/-- Python `int()` applied to a float: truncation toward zero. -/
def pyTrunc (q : ℚ) : ℤ :=
  if 0 ≤ q then Rat.floor q else Rat.ceil q

/-- `_classify_trend` (app.py lines 1292-1299): slope above 100 minor
units per period is "increasing", below -100 "decreasing", else "stable". -/
def classifyTrend (slope : ℚ) : String :=
  if slope > 100 then "increasing"
  else if slope < -100 then "decreasing"
  else "stable"

/-- `base_confidence = min(0.9, 0.3 + data_points * 0.08)` (line 1073). -/
def baseConfidence (dataPoints : ℕ) : ℚ :=
  min (9/10) (3/10 + (dataPoints : ℚ) * (2/25))

/-- Accuracy bonus/penalty factor (lines 1076-1081). -/
def accuracyFactor (accuracy : ℚ) : ℚ :=
  if accuracy > 7/10 then 6/5
  else if accuracy < 3/10 then 4/5
  else 1

/-- Final confidence bound `max(0.1, min(0.95, confidence))` (line 1212). -/
def clampConfidence (x : ℚ) : ℚ :=
  max (1/10) (min (19/20) x)

/-- The non-empty result dictionary of `get_peer_recommendations`
(app.py lines 871-881), restricted to the fields the decision policy
reads. -/
structure PeerRec where
  avgPeerBudget : ℚ
  avgPeerSpending : ℚ
  peerSamples : ℕ
  peerCount : ℕ
deriving DecidableEq, Repr

/-- The per-category inputs of the decision policy in `predict_with_ml`,
as assembled at lines 969-1057: `data_points = len(category_data)`, the
latest feature row's `budget_accuracy`, `historical_mean`,
`historical_spent_mean` and `historical_trend`, the category's
`target_amount` column (used only by `_statistical_fallback_prediction`),
the two model outputs surviving the finite/non-negative filter, the
`user_id in user_clusters` test, and the resolver result fetched at line
1105. -/
structure CategoryInputs where
  dataPoints : ℕ
  accuracy : ℚ
  budgetHistAvg : ℚ
  spendingHistAvg : ℚ
  histTrend : ℚ
  plannedAmounts : List ℚ
  linearPred : Option ℚ
  forestPred : Option ℚ
  userInClusters : Bool
  peerData : Option PeerRec
deriving DecidableEq, Repr

/-- The values of `predictions_dict` (insertion order linear, forest). -/
def modelPredList (c : CategoryInputs) : List ℚ :=
  match c.linearPred, c.forestPred with
  | some l, some f => [l, f]
  | some l, none => [l]
  | none, some f => [f]
  | none, none => []

/-- Truth of `if predictions_dict:`. -/
def hasPreds (c : CategoryInputs) : Prop :=
  modelPredList c ≠ []

instance (c : CategoryInputs) : Decidable (hasPreds c) := by
  unfold hasPreds; infer_instance

/-- `ml_predicted_amount` (lines 1035, 1042): the model average when
predictions exist, else the budget historical average. -/
def mlPredicted (c : CategoryInputs) : ℚ :=
  match c.linearPred, c.forestPred with
  | some l, some f => (l + f) / 2
  | some l, none => l
  | none, some f => f
  | none, none => c.budgetHistAvg

/-- `model_agreement` (lines 1036, 1044-1050): with two model outputs,
`max(0.3, 1 - std/mean)` (population std of two values is `|l-f|/2`) when
the mean is positive and `0.5` otherwise; `0.7` with one output or none. -/
def modelAgreement (c : CategoryInputs) : ℚ :=
  match c.linearPred, c.forestPred with
  | some l, some f =>
    let m := (l + f) / 2
    if m > 0 then max (3/10) (1 - (|l - f| / 2) / m) else 1/2
  | some _, none => 7/10
  | none, some _ => 7/10
  | none, none => 7/10

/-- `ml_change` (lines 1038, 1053): distance of the ensemble average from
the budget historical average, `0` when no model predicted. -/
def mlChange (c : CategoryInputs) : ℚ :=
  if hasPreds c then |mlPredicted c - c.budgetHistAvg| else 0

/-- `_statistical_fallback_prediction` (lines 1282-1290): plain mean of
the category's `target_amount` column, `0` for an empty frame. -/
def statisticalFallback (c : CategoryInputs) : ℚ :=
  if c.plannedAmounts = [] then 0 else meanQ c.plannedAmounts

/-- The `model_used` strings of `predict_with_ml`, one constructor per
assignment site. -/
inductive ModelLabel where
  | histInsufficient (dataPoints : ℕ)
  | histVeryLowAcc
  | accurateBudgeter
  | peerInformed (peerCount : ℕ)
  | peerBased (peerCount : ℕ)
  | conservativeHistNeutral
  | conservativeEnsembleNeutral
  | spendingInformed
  | conservativeHistExtreme
  | confidentEnsemble
  | histStable
  | spendingAware
  | conservativeGood
  | balancedEnsemble
  | conservativeNoSpending
  | histStatFallback
  | safetyFallback
deriving DecidableEq, Repr

/-- The exact `model_used` string of each assignment site in the source. -/
def ModelLabel.text : ModelLabel → String
  | .histInsufficient dp => "Historical Average (only " ++ toString dp ++ " data points)"
  | .histVeryLowAcc => "Historical Average (very low accuracy)"
  | .accurateBudgeter => "Accurate Budgeter (spending  budget)"
  | .peerInformed n => "Peer-Informed Prediction (" ++ toString n ++ " similar users)"
  | .peerBased n => "Peer-Based Recommendation (" ++ toString n ++ " similar users)"
  | .conservativeHistNeutral => "Conservative Historical (ML too extreme, neutral accuracy)"
  | .conservativeEnsembleNeutral => "Conservative Ensemble (neutral accuracy)"
  | .spendingInformed => "Spending-Informed Ensemble (spending > budget)"
  | .conservativeHistExtreme => "Conservative Historical (ML too extreme)"
  | .confidentEnsemble => "Confident Ensemble (good accuracy)"
  | .histStable => "Historical Average (stable pattern)"
  | .spendingAware => "Spending-Aware Ensemble (tend to overspend)"
  | .conservativeGood => "Conservative Ensemble (good at budgeting)"
  | .balancedEnsemble => "Balanced Ensemble (reasonable budgeter)"
  | .conservativeNoSpending => "Conservative Ensemble (no spending history)"
  | .histStatFallback => "Historical Average"
  | .safetyFallback => "Fallback Historical Average"

/-- One prediction of `predict_with_ml` for one category, restricted to
the fields the claims are about (lines 1221-1239). -/
structure Decision where
  predictedAmount : ℚ
  predictedCents : ℤ
  confidence : ℚ
  label : ModelLabel
  trendDirection : String
deriving DecidableEq, Repr

/-- The peer branch of the decision policy (lines 1102-1129).  A missing
or under-supported resolver result leaves `predicted_amount`/`model_used`
as `None`, which the post-branch safety net (lines 1204-1209) replaces by
the historical average with confidence `base * 0.6` and the
"Fallback Historical Average" label. -/
def peerBranch (c : CategoryInputs) : ℚ × ℚ × ModelLabel :=
  let safety : ℚ × ℚ × ModelLabel :=
    (c.budgetHistAvg, baseConfidence c.dataPoints * (3/5), .safetyFallback)
  match c.peerData with
  | some pd =>
    if 3 ≤ pd.peerSamples then
      let peerConf := min (4/5) (2/5 + (pd.peerSamples : ℚ) * (1/20))
      if c.budgetHistAvg > 0 then
        let w := min (3/5) ((pd.peerSamples : ℚ) / 10)
        (c.budgetHistAvg * (1 - w) + pd.avgPeerBudget * w, peerConf, .peerInformed pd.peerCount)
      else
        (pd.avgPeerBudget, peerConf, .peerBased pd.peerCount)
    else safety
  | none => safety

/-- The strategy selection of `predict_with_ml` (lines 1084-1209):
`(predicted_amount, confidence-before-clamping, model_used)` for one
category, assuming the accurate-budgeter ratio check does not raise. -/
def decideRaw (c : CategoryInputs) : ℚ × ℚ × ModelLabel :=
  let b := c.budgetHistAvg
  let s := c.spendingHistAvg
  let base := baseConfidence c.dataPoints
  let af := accuracyFactor c.accuracy
  let ag := modelAgreement c
  let ml := mlPredicted c
  if c.dataPoints < 3 then
    (b, base * (3/5), .histInsufficient c.dataPoints)
  else if c.accuracy < 1/5 then
    (b, base * af * (7/10), .histVeryLowAcc)
  else if hasPreds c ∧ s > 0 ∧ |s / b - 1| < 1/50 then
    (max b (s * (51/50)), base * af * ag * (23/25), .accurateBudgeter)
  else if c.dataPoints < 5 ∧ c.userInClusters then
    peerBranch c
  else if hasPreds c ∧ c.accuracy = 1/2 then
    if mlChange c > b * (1/2) then
      (b * (9/10) + ml * (1/10), base * ag * (7/10), .conservativeHistNeutral)
    else
      (b * (4/5) + ml * (1/5), base * ag * (17/20), .conservativeEnsembleNeutral)
  else if hasPreds c ∧ c.accuracy > 1/2 then
    let conf := base * af * ag * (17/20)
    if s > 0 ∧ s > b * (21/20) then
      (max b (s * (19/20)) * (7/10) + ml * (3/10), conf, .spendingInformed)
    else if mlChange c > b * (1/2) then
      (b * (19/20) + ml * (1/20), conf, .conservativeHistExtreme)
    else
      (b * (3/5) + ml * (2/5), conf, .confidentEnsemble)
  else if hasPreds c ∧ mlChange c < b * (1/50) then
    (b, base * af * ag * (19/20), .histStable)
  else if hasPreds c then
    let conf := base * af * ag * (9/10)
    if s > 0 then
      let r := s / b
      if r > 21/20 then (min ml (s * (11/10)), conf, .spendingAware)
      else if r < 19/20 then (b * (7/10) + ml * (3/10), conf, .conservativeGood)
      else (s * (4/5) + ml * (1/5), conf, .balancedEnsemble)
    else
      (b * (17/20) + ml * (3/20), conf, .conservativeNoSpending)
  else
    (statisticalFallback c, base * (7/10), .histStatFallback)

/-- The accurate-budgeter ratio check at line 1096 divides
`spending_historical_avg` by `budget_historical_avg`; Python raises
`ZeroDivisionError` exactly when that condition is evaluated (both earlier
branches declined) with a zero denominator and a positive numerator after
a truthy `predictions_dict`. -/
def raisesOnRatioCheck (c : CategoryInputs) : Prop :=
  3 ≤ c.dataPoints ∧ ¬ c.accuracy < 1/5 ∧ hasPreds c ∧
    c.spendingHistAvg > 0 ∧ c.budgetHistAvg = 0

instance (c : CategoryInputs) : Decidable (raisesOnRatioCheck c) := by
  unfold raisesOnRatioCheck; infer_instance

/-- One iteration of the category loop of `predict_with_ml`: either the
assembled prediction (confidence clamped at line 1212, cents truncated at
line 1224, trend classified at line 1228) or the `ZeroDivisionError`. -/
def decideCategoryE (c : CategoryInputs) : Except Unit Decision :=
  if raisesOnRatioCheck c then .error ()
  else
    .ok { predictedAmount := (decideRaw c).1
          predictedCents := pyTrunc (decideRaw c).1
          confidence := clampConfidence (decideRaw c).2.1
          label := (decideRaw c).2.2
          trendDirection := classifyTrend c.histTrend }

/-- The category loop: predictions are appended one category at a time;
an exception in any category escapes the loop (there is no per-category
handler). -/
def runCategories : List CategoryInputs → Except Unit (List Decision)
  | [] => .ok []
  | c :: cs =>
    match decideCategoryE c, runCategories cs with
    | .ok d, .ok ds => .ok (d :: ds)
    | _, _ => .error ()

/-- Stable descending insertion by confidence, matching
`predictions.sort(key=lambda x: x.confidence_score, reverse=True)`
(line 1248). -/
def insertByConfidence (d : Decision) : List Decision → List Decision
  | [] => [d]
  | e :: es =>
    if e.confidence ≤ d.confidence then d :: e :: es
    else e :: insertByConfidence d es

/-- Sort the prediction list by descending confidence. -/
def sortByConfidence (l : List Decision) : List Decision :=
  l.foldr insertByConfidence []

/-- `predict_with_ml` from the per-category inputs on: run every category,
sort by descending confidence; any exception reaches only the outermost
handler (lines 1252-1254), which returns the empty list. -/
def predictWithML (cats : List CategoryInputs) : List Decision :=
  match runCategories cats with
  | .ok ds => sortByConfidence ds
  | .error _ => []

/-- One row of the budget result set (`budgets_df`): a `(budget, category)`
line item with its period bounds and planned amount in minor units.
Dates are modelled as integers usable in range comparisons (spec section 6). -/
structure BudgetRow where
  categoryId : ℕ
  periodStart : ℤ
  periodEnd : ℤ
  plannedCents : ℤ
deriving DecidableEq, Repr

/-- One row of the spending result set (`spending_df`): merged direct and
split transactions, `spent_cents = ABS(amount_cents)` of an expense. -/
structure SpendingRow where
  categoryId : ℕ
  txnDate : ℤ
  spentCents : ℤ
deriving DecidableEq, Repr

/-- One row of the account-usage result set (`accounts_df`). -/
structure AccountRow where
  categoryId : ℕ
  transactionCount : ℕ
deriving DecidableEq, Repr

/-- `category_budgets.sort_values('period_start')`: insertion of one row
into a list already ordered by `periodStart`. -/
def insertRow (b : BudgetRow) : List BudgetRow → List BudgetRow
  | [] => [b]
  | c :: cs =>
    if b.periodStart ≤ c.periodStart then b :: c :: cs
    else c :: insertRow b cs

/-- Sort budget rows by ascending `periodStart`. -/
def sortByStart (l : List BudgetRow) : List BudgetRow :=
  l.foldr insertRow []

/-- pandas `.tail(n)`: the last `n` elements. -/
def lastN (n : ℕ) (l : List BudgetRow) : List BudgetRow :=
  l.drop (l.length - n)

/-- Spending rows of one category dated inside a period
(`txn_date >= start and txn_date <= end`, lines 355-358 and 399-402). -/
def periodSpend (catSpending : List SpendingRow) (s e : ℤ) : List SpendingRow :=
  catSpending.filter (fun r => decide (s ≤ r.txnDate) && decide (r.txnDate ≤ e))

/-- The lagged (strictly-prior) features of one vector: the `historical_*`,
`recent_*` and combined-mean fields of `engineer_features`
(lines 336-395).  `stdSq` carries the square of `historical_std`; the
pandas `NaN` on a singleton series is `none`. -/
structure HistFeatures where
  mean : ℚ
  stdSq : Option ℚ
  histMin : ℚ
  histMax : ℚ
  trend : ℚ
  count : ℕ
  spentMean : ℚ
  spentCount : ℕ
  combinedMean : ℚ
  recentMean : ℚ
  recentTrend : ℚ
deriving DecidableEq, Repr

/-- Compute the lagged features from the chronologically sorted strictly
prior budget rows of the category and the category's spending rows;
`fallbackPlanned` is the row's own planned amount, used by the
first-budget default branch (lines 382-395). -/
def histFeaturesOf (hist : List BudgetRow) (catSpending : List SpendingRow)
    (fallbackPlanned : ℚ) : HistFeatures :=
  if hist = [] then
    { mean := fallbackPlanned, stdSq := some 0
      histMin := fallbackPlanned, histMax := fallbackPlanned
      trend := 0, count := 0
      spentMean := 0, spentCount := 0
      combinedMean := fallbackPlanned
      recentMean := fallbackPlanned, recentTrend := 0 }
  else
    let planned := hist.map (fun b => (b.plannedCents : ℚ))
    let m := meanQ planned
    let spentVals := hist.filterMap (fun pr =>
      let ps := periodSpend catSpending pr.periodStart pr.periodEnd
      if ps = [] then none
      else some ((ps.map (fun r => (r.spentCents : ℚ))).sum))
    let sm := if spentVals = [] then 0 else meanQ spentVals
    let sc := spentVals.length
    let recent := lastN 3 hist
    let recentPlanned := recent.map (fun b => (b.plannedCents : ℚ))
    { mean := m
      stdSq := if 2 ≤ planned.length then some (sampleVarQ planned) else none
      histMin := listMinQ planned, histMax := listMaxQ planned
      trend := trendSlope planned, count := hist.length
      spentMean := sm, spentCount := sc
      combinedMean := if 0 < sc then (7/10) * sm + (3/10) * m else m
      recentMean := if recent = [] then m else meanQ recentPlanned
      recentTrend := if 1 < recent.length then trendSlope recentPlanned else 0 }

/-- `budget_accuracy` (lines 412-430): with period spending, normalized
closeness of plan to actual; with category spending only outside this
period, `0.7`; with no category spending at all, the neutral `0.5`.
`catSpendingEmpty` is the truth of `category_spending.empty` (line 398),
which short-circuits to `0.5` before any sum is taken. -/
def budgetAccuracyOf (planned actual total : ℚ) (catSpendingEmpty : Bool) : ℚ :=
  if catSpendingEmpty then 1/2
  else if 0 < actual then 1 - |planned - actual| / max planned actual
  else if 0 < total then 7/10
  else 1/2

/-- One engineered feature vector of `engineer_features` for a
`(category, period)` pair, restricted to the non-cyclical fields (the
month/quarter sine and cosine encodings depend only on the row's own
calendar fields and are irrational; no claim mentions them). -/
structure FeatureVec where
  categoryId : ℕ
  targetAmount : ℚ
  historicalMean : ℚ
  historicalStdSq : Option ℚ
  historicalMin : ℚ
  historicalMax : ℚ
  historicalTrend : ℚ
  historicalCount : ℕ
  historicalSpentMean : ℚ
  historicalSpentCount : ℕ
  historicalCombinedMean : ℚ
  recentMean : ℚ
  recentTrend : ℚ
  actualSpent : ℚ
  spendingFrequency : ℕ
  avgTransactionSize : ℚ
  spendingVolatilitySq : ℚ
  budgetAccuracy : ℚ
  accountDiversity : ℚ
  primaryAccountUsage : ℚ
deriving DecidableEq, Repr

/-- The body of the inner loop of `engineer_features` (lines 319-440):
the feature vector for one budget row, computed from the full result
sets.  `category_budgets` is sorted by `period_start`; the historical
rows are those strictly earlier than this row's start. -/
def featureRow (budgets : List BudgetRow) (spending : List SpendingRow)
    (accounts : List AccountRow) (row : BudgetRow) : FeatureVec :=
  let catB := sortByStart (budgets.filter (fun b => b.categoryId == row.categoryId))
  let hist := catB.filter (fun b => decide (b.periodStart < row.periodStart))
  let catS := spending.filter (fun r => r.categoryId == row.categoryId)
  let catA := accounts.filter (fun a => a.categoryId == row.categoryId)
  let hf := histFeaturesOf hist catS (row.plannedCents : ℚ)
  let ps := periodSpend catS row.periodStart row.periodEnd
  let actual := if catS = [] then 0 else (ps.map (fun r => (r.spentCents : ℚ))).sum
  let total := (catS.map (fun r => (r.spentCents : ℚ))).sum
  { categoryId := row.categoryId
    targetAmount := (row.plannedCents : ℚ)
    historicalMean := hf.mean
    historicalStdSq := hf.stdSq
    historicalMin := hf.histMin
    historicalMax := hf.histMax
    historicalTrend := hf.trend
    historicalCount := hf.count
    historicalSpentMean := hf.spentMean
    historicalSpentCount := hf.spentCount
    historicalCombinedMean := hf.combinedMean
    recentMean := hf.recentMean
    recentTrend := hf.recentTrend
    actualSpent := actual
    spendingFrequency := if catS = [] then 0 else ps.length
    avgTransactionSize :=
      if catS = [] then 0
      else if ps = [] then 0 else meanQ (ps.map (fun r => (r.spentCents : ℚ)))
    spendingVolatilitySq :=
      if catS = [] then 0
      else if 1 < ps.length then sampleVarQ (ps.map (fun r => (r.spentCents : ℚ))) else 0
    budgetAccuracy := budgetAccuracyOf (row.plannedCents : ℚ) actual total catS.isEmpty
    accountDiversity := if catA = [] then 1 else (catA.length : ℚ)
    primaryAccountUsage :=
      if catA = [] then 1
      else listMaxQ (catA.map (fun a => (a.transactionCount : ℚ))) }

/-- The feature rows of one category in the order `engineer_features`
emits them (chronological by `period_start`). -/
def categoryRows (budgets : List BudgetRow) (spending : List SpendingRow)
    (accounts : List AccountRow) (cid : ℕ) : List FeatureVec :=
  (sortByStart (budgets.filter (fun b => b.categoryId == cid))).map
    (featureRow budgets spending accounts)

/-- The glue of `predict_with_ml` (lines 969-1057): the per-category
policy inputs read off the category's feature rows
(`category_data = features_df[features_df['category_id'] == cid]`,
`latest_data = category_data.iloc[-1]`, `data_points = len(category_data)`),
combined with the opaque model outputs, cluster membership and resolver
result.  `none` when the category has no rows. -/
def categoryInputsOf (budgets : List BudgetRow) (spending : List SpendingRow)
    (accounts : List AccountRow) (cid : ℕ) (userInClusters : Bool)
    (peerData : Option PeerRec) (linearPred forestPred : Option ℚ) :
    Option CategoryInputs :=
  let rows := categoryRows budgets spending accounts cid
  match rows.getLast? with
  | none => none
  | some latest =>
    some { dataPoints := rows.length
           accuracy := latest.budgetAccuracy
           budgetHistAvg := latest.historicalMean
           spendingHistAvg := latest.historicalSpentMean
           histTrend := latest.historicalTrend
           plannedAmounts := rows.map (fun v => v.targetAmount)
           linearPred := linearPred
           forestPred := forestPred
           userInClusters := userInClusters
           peerData := peerData }

/-- One qualifying row of the `peer_budgets` CTE of
`get_peer_recommendations` (lines 821-857): a peer's budget line item for
the target category inside the recent window, with its period-matched
actual spending. -/
structure PeerRow where
  plannedCents : ℤ
  actualSpent : ℤ
deriving DecidableEq, Repr

/-- `get_peer_recommendations` (lines 807-886), with the SQL aggregate
modelled relationally: `rows` are the `peer_budgets` rows for the
`(cohort, category)` pair; the outer query keeps `planned_cents > 0`,
aggregates, and the caller-side test `if result and result[0]:` is truthy
exactly when at least one qualifying row exists (the average of positive
plans is positive).  An unclustered user or an empty peer list returns the
empty dictionary, modelled as `none`. -/
def getPeerRecommendations (userInClusters : Bool) (peers : List ℕ)
    (rows : List PeerRow) : Option PeerRec :=
  if !userInClusters then none
  else if peers = [] then none
  else
    let qual := rows.filter (fun r => decide (0 < r.plannedCents))
    if qual = [] then none
    else
      some { avgPeerBudget := meanQ (qual.map (fun r => (r.plannedCents : ℚ)))
             avgPeerSpending := meanQ (qual.map (fun r => (r.actualSpent : ℚ)))
             peerSamples := qual.length
             peerCount := peers.length }

/-- A concrete single-period category whose historical slope is 150. -/
def trendExInputs : CategoryInputs :=
  { dataPoints := 1, accuracy := 1/2, budgetHistAvg := 1000, spendingHistAvg := 0,
    histTrend := 150, plannedAmounts := [1000], linearPred := none, forestPred := none,
    userInClusters := false, peerData := none }

/-- A category with exactly two historical budget periods (planned 1200
then 1800 minor units). -/
def twoPeriodBudgets : List BudgetRow :=
  [{ categoryId := 1, periodStart := 0, periodEnd := 30, plannedCents := 1200 },
   { categoryId := 1, periodStart := 31, periodEnd := 60, plannedCents := 1800 }]

/-- The policy inputs `predict_with_ml` assembles for that category:
2 data points, and the baseline is the mean of the strictly prior planned
amounts of the latest row, i.e. 1200 (the first period alone). -/
def twoPeriodInputs : CategoryInputs :=
  { dataPoints := 2, accuracy := 1/2, budgetHistAvg := 1200, spendingHistAvg := 0,
    histTrend := 0, plannedAmounts := [1200, 1800], linearPred := none, forestPred := none,
    userInClusters := false, peerData := none }

/-! ### C2: the accurate-budgeter override -/

/-- The claim's concrete instance: ≥1 model prediction, budget average
10000 cents, spending average 9980 cents (ratio diff 0.002 < 0.02). -/
def accurateBudgeterEx : CategoryInputs :=
  { dataPoints := 5, accuracy := 3/5, budgetHistAvg := 10000, spendingHistAvg := 9980,
    histTrend := 0, plannedAmounts := [10000], linearPred := some 10000, forestPred := none,
    userInClusters := false, peerData := none }

/-- A category in the claim's scenario: 4 data points, neutral accuracy
0.5, one model prediction of 11000 against a 10000 budget average, a
clustered user, and no peer data (`peer_samples = 0`). -/
def peerFallthroughEx : CategoryInputs :=
  { dataPoints := 4, accuracy := 1/2, budgetHistAvg := 10000, spendingHistAvg := 0,
    histTrend := 0, plannedAmounts := [10000, 10000, 10000, 10000],
    linearPred := some 11000, forestPred := none,
    userInClusters := true, peerData := none }

/-- A category whose historical budget average is zero while spending
history is positive and models predicted: evaluating the
accurate-budgeter ratio at line 1096 raises `ZeroDivisionError`. -/
def zeroBudgetCat : CategoryInputs :=
  { dataPoints := 3, accuracy := 1/2, budgetHistAvg := 0, spendingHistAvg := 500,
    histTrend := 0, plannedAmounts := [0, 0, 0], linearPred := some 100,
    forestPred := some 200, userInClusters := false, peerData := none }

/-- A perfectly ordinary second category (two data points, pure
historical branch). -/
def healthyCat : CategoryInputs :=
  { dataPoints := 2, accuracy := 1/2, budgetHistAvg := 4000, spendingHistAvg := 0,
    histTrend := 0, plannedAmounts := [4000, 4000], linearPred := none,
    forestPred := none, userInClusters := false, peerData := none }

/-! ### C8: the minimum-support guard lives in the caller -/

/-- Two qualifying peer budget rows: fewer than the claimed minimum of 3. -/
def twoPeerRows : List PeerRow :=
  [{ plannedCents := 1000, actualSpent := 900 },
   { plannedCents := 1200, actualSpent := 1100 }]

/-- Three qualifying peer rows: the caller-side minimum is met. -/
def threePeerRows : List PeerRow :=
  [{ plannedCents := 1000, actualSpent := 900 },
   { plannedCents := 1200, actualSpent := 1100 },
   { plannedCents := 1400, actualSpent := 1300 }]

/-- A category on which the peer branch actually fires: 4 data points,
clustered user, resolver result with 4 samples from 6 peers. -/
def peerUsedCat : CategoryInputs :=
  { dataPoints := 4, accuracy := 1/2, budgetHistAvg := 10000, spendingHistAvg := 0,
    histTrend := 0, plannedAmounts := [10000, 10000, 10000, 10000],
    linearPred := none, forestPred := none, userInClusters := true,
    peerData := some { avgPeerBudget := 9000, avgPeerSpending := 8000,
                       peerSamples := 4, peerCount := 6 } }

/-- A period with a single in-period transaction exactly matching plan. -/
def accurateRow : BudgetRow :=
  { categoryId := 1, periodStart := 0, periodEnd := 30, plannedCents := 1000 }

/-- The spending window for `accurateRow`: one transaction of 1000. -/
def accurateSpending : List SpendingRow :=
  [{ categoryId := 1, txnDate := 10, spentCents := 1000 }]

/-- The default lagged features of a first budget period. -/
def firstPeriodDefaults (planned : ℚ) : HistFeatures :=
  { mean := planned, stdSq := some 0, histMin := planned, histMax := planned,
    trend := 0, count := 0, spentMean := 0, spentCount := 0,
    combinedMean := planned, recentMean := planned, recentTrend := 0 }

def singleRowInputs (budgets : List BudgetRow) (spending : List SpendingRow)
    (accounts : List AccountRow) (row : BudgetRow) (u : Bool) (pd : Option PeerRec)
    (lp fp : Option ℚ) : CategoryInputs :=
  { dataPoints := 1
    accuracy := (featureRow budgets spending accounts row).budgetAccuracy
    budgetHistAvg := (featureRow budgets spending accounts row).historicalMean
    spendingHistAvg := (featureRow budgets spending accounts row).historicalSpentMean
    histTrend := (featureRow budgets spending accounts row).historicalTrend
    plannedAmounts := [(featureRow budgets spending accounts row).targetAmount]
    linearPred := lp, forestPred := fp, userInClusters := u, peerData := pd }

/-! ### C7: what the period-P vector may depend on -/

/-- Ordering of budget rows by period start. -/
def rowLE (a b : BudgetRow) : Prop := a.periodStart ≤ b.periodStart

/-- The lagged (strictly-prior) part of a feature vector. -/
def histPartOf (v : FeatureVec) : HistFeatures :=
  { mean := v.historicalMean, stdSq := v.historicalStdSq
    histMin := v.historicalMin, histMax := v.historicalMax
    trend := v.historicalTrend, count := v.historicalCount
    spentMean := v.historicalSpentMean, spentCount := v.historicalSpentCount
    combinedMean := v.historicalCombinedMean
    recentMean := v.recentMean, recentTrend := v.recentTrend }

/-- The period-P budget row of the noninterference counterexample. -/
def periodPRow : BudgetRow :=
  { categoryId := 1, periodStart := 0, periodEnd := 30, plannedCents := 1000 }

/-- A transaction dated strictly after period P ends. -/
def laterTxn : SpendingRow :=
  { categoryId := 1, txnDate := 40, spentCents := 500 }

/-- A budget row strictly before period P, ending before P starts. -/
def priorRow : BudgetRow :=
  { categoryId := 1, periodStart := -40, periodEnd := -10, plannedCents := 800 }

/-- A category with exactly one budget period, planned 1500 minor units. -/
def soloRow : BudgetRow :=
  { categoryId := 2, periodStart := 0, periodEnd := 30, plannedCents := 1500 }

/-! ### Helper lemmas -/

/-! ### Helper lemmas -/

theorem clampConfidence_lower (x : ℚ) : 1/10 ≤ clampConfidence x :=
  le_max_left _ _

theorem clampConfidence_upper (x : ℚ) : clampConfidence x ≤ 19/20 := by
  unfold clampConfidence
  apply max_le (by norm_num) (min_le_left _ _)

theorem clampConfidence_eq_self {x : ℚ} (h1 : 1/10 ≤ x) (h2 : x ≤ 19/20) :
    clampConfidence x = x := by
  unfold clampConfidence
  rw [min_eq_right h2, max_eq_right h1]

theorem baseConfidence_lower (dp : ℕ) : 3/10 ≤ baseConfidence dp := by
  unfold baseConfidence
  apply le_min (by norm_num)
  have : (0 : ℚ) ≤ (dp : ℚ) * (2/25) := by positivity
  linarith

theorem baseConfidence_upper (dp : ℕ) : baseConfidence dp ≤ 9/10 :=
  min_le_left _ _

theorem decideCategoryE_ok_iff {c : CategoryInputs} {d : Decision} :
    decideCategoryE c = .ok d ↔
      ¬ raisesOnRatioCheck c ∧
        d = { predictedAmount := (decideRaw c).1
              predictedCents := pyTrunc (decideRaw c).1
              confidence := clampConfidence (decideRaw c).2.1
              label := (decideRaw c).2.2
              trendDirection := classifyTrend c.histTrend } := by
  unfold decideCategoryE
  split
  · simp_all
  · simp_all [eq_comm]

theorem runCategories_ok_mem {cats : List CategoryInputs} {ds : List Decision}
    (h : runCategories cats = .ok ds) {d : Decision} (hd : d ∈ ds) :
    ∃ c ∈ cats, decideCategoryE c = .ok d := by
  induction cats generalizing ds with
  | nil =>
    simp only [runCategories] at h
    injection h with h2
    subst h2
    simp at hd
  | cons c cs ih =>
    simp only [runCategories] at h
    rcases hc : decideCategoryE c with _ | d₀ <;> rw [hc] at h
    · cases h
    rcases hcs : runCategories cs with _ | ds₀ <;> rw [hcs] at h
    · cases h
    injection h with h2
    subst h2
    rcases List.mem_cons.mp hd with hd1 | hd1
    · exact ⟨c, by simp, hd1 ▸ hc⟩
    · obtain ⟨c', hc', hok⟩ := ih hcs hd1
      exact ⟨c', by simp [hc'], hok⟩

theorem mem_insertByConfidence {d e : Decision} {l : List Decision} :
    e ∈ insertByConfidence d l ↔ e = d ∨ e ∈ l := by
  induction l with
  | nil => simp [insertByConfidence]
  | cons x xs ih =>
    unfold insertByConfidence
    split
    · simp [or_comm, or_assoc, or_left_comm]
    · simp [ih, or_comm, or_assoc, or_left_comm]

theorem mem_sortByConfidence {d : Decision} {l : List Decision} :
    d ∈ sortByConfidence l ↔ d ∈ l := by
  induction l with
  | nil => simp [sortByConfidence]
  | cons x xs ih =>
    simp only [sortByConfidence, List.foldr_cons] at *
    rw [mem_insertByConfidence, ih]
    simp

/-! ### C4: one category's exception aborts the whole request -/

theorem runCategories_error_of_mem {cats : List CategoryInputs} {c : CategoryInputs}
    (hc : c ∈ cats) (he : decideCategoryE c = .error ()) :
    runCategories cats = .error () := by
  induction cats with
  | nil => simp at hc
  | cons x xs ih =>
    rcases List.mem_cons.mp hc with rfl | hmem
    · simp only [runCategories, he]
    · simp only [runCategories, ih hmem]
      rcases decideCategoryE x with _ | d <;> rfl

/-! ### C9: first-period defaults and the single-period prediction -/

theorem mem_insertRow {a b : BudgetRow} {l : List BudgetRow} :
    a ∈ insertRow b l ↔ a = b ∨ a ∈ l := by
  induction l with
  | nil => simp [insertRow]
  | cons x xs ih =>
    unfold insertRow
    split
    · simp [or_comm, or_assoc, or_left_comm]
    · simp [ih, or_comm, or_assoc, or_left_comm]

theorem mem_sortByStart {a : BudgetRow} {l : List BudgetRow} :
    a ∈ sortByStart l ↔ a ∈ l := by
  induction l with
  | nil => simp [sortByStart]
  | cons x xs ih =>
    simp only [sortByStart, List.foldr_cons] at *
    rw [mem_insertRow, ih]
    simp

theorem decideRaw_fst_of_lt3 (c : CategoryInputs) (h : c.dataPoints < 3) :
    (decideRaw c).1 = c.budgetHistAvg := by
  simp only [decideRaw]
  rw [if_pos h]

/-! ### C3: confidence always in [0.1, 0.95] -/

























theorem histFeaturesOf_nil (catS : List SpendingRow) (planned : ℚ) :
    histFeaturesOf [] catS planned = firstPeriodDefaults planned := by
  simp [histFeaturesOf, firstPeriodDefaults]

theorem sorted_insertRow {l : List BudgetRow} (b : BudgetRow)
    (h : l.Sorted rowLE) : (insertRow b l).Sorted rowLE := by
  induction l with
  | nil => simp [insertRow, rowLE]
  | cons x xs ih =>
    rw [List.sorted_cons] at h
    unfold insertRow
    split_ifs with hle
    · rw [List.sorted_cons]
      refine ⟨?_, ?_⟩
      · intro c hc
        rcases List.mem_cons.mp hc with rfl | hc
        · exact hle
        · exact le_trans hle (h.1 c hc)
      · rw [List.sorted_cons]
        exact h
    · rw [List.sorted_cons]
      refine ⟨?_, ih h.2⟩
      intro c hc
      rcases mem_insertRow.mp hc with rfl | hc
      · exact le_of_not_le hle
      · exact h.1 c hc

theorem sorted_sortByStart (l : List BudgetRow) : (sortByStart l).Sorted rowLE := by
  induction l with
  | nil => simp [sortByStart]
  | cons x xs ih => exact sorted_insertRow x ih

theorem insertRow_of_forall_le {b : BudgetRow} {l : List BudgetRow}
    (h : ∀ c ∈ l, b.periodStart ≤ c.periodStart) : insertRow b l = b :: l := by
  cases l with
  | nil => rfl
  | cons x xs =>
    unfold insertRow
    rw [if_pos (h x (by simp))]

theorem filter_insertRow_pos (p : BudgetRow → Bool) {b : BudgetRow} {l : List BudgetRow}
    (hl : l.Sorted rowLE) (hb : p b = true) :
    (insertRow b l).filter p = insertRow b (l.filter p) := by
  induction l with
  | nil => simp [insertRow, hb]
  | cons x xs ih =>
    rw [List.sorted_cons] at hl
    rw [show insertRow b (x :: xs) =
      if b.periodStart ≤ x.periodStart then b :: x :: xs else x :: insertRow b xs from rfl]
    split_ifs with hle
    · rw [List.filter_cons, hb]
      simp only [if_true]
      symm
      apply insertRow_of_forall_le
      intro c hc
      have hcmem := (List.mem_filter.mp hc).1
      rcases List.mem_cons.mp hcmem with rfl | hmem
      · exact hle
      · exact le_trans hle (hl.1 c hmem)
    · rw [List.filter_cons, List.filter_cons]
      cases hpx : p x
      · simp only [Bool.false_eq_true, if_false]
        exact ih hl.2
      · simp only [if_true]
        rw [ih hl.2]
        rw [show insertRow b (x :: List.filter p xs) =
          if b.periodStart ≤ x.periodStart then b :: x :: List.filter p xs
          else x :: insertRow b (List.filter p xs) from rfl]
        rw [if_neg hle]

theorem filter_insertRow_neg (p : BudgetRow → Bool) {b : BudgetRow} {l : List BudgetRow}
    (hb : p b = false) :
    (insertRow b l).filter p = l.filter p := by
  induction l with
  | nil => simp [insertRow, hb]
  | cons x xs ih =>
    rw [show insertRow b (x :: xs) =
      if b.periodStart ≤ x.periodStart then b :: x :: xs else x :: insertRow b xs from rfl]
    split_ifs with hle
    · rw [List.filter_cons, hb]
      simp only [Bool.false_eq_true, if_false]
    · rw [List.filter_cons, List.filter_cons]
      cases hpx : p x
      · simp only [Bool.false_eq_true, if_false]
        exact ih
      · simp only [if_true]
        rw [ih]

theorem filter_sortByStart (p : BudgetRow → Bool) (l : List BudgetRow) :
    (sortByStart l).filter p = sortByStart (l.filter p) := by
  induction l with
  | nil => rfl
  | cons x xs ih =>
    show (insertRow x (sortByStart xs)).filter p = sortByStart ((x :: xs).filter p)
    rw [List.filter_cons]
    cases hpx : p x
    · simp only [Bool.false_eq_true, if_false]
      rw [filter_insertRow_neg p hpx]
      exact ih
    · simp only [if_true]
      rw [filter_insertRow_pos p (sorted_sortByStart xs) hpx, ih]
      rfl

/-! ### C5: the budget-accuracy feature -/

theorem budgetAccuracyOf_bounds (p a t : ℚ) (e : Bool)
    (hp : 0 ≤ p) (ha : 0 ≤ a) :
    0 ≤ budgetAccuracyOf p a t e ∧ budgetAccuracyOf p a t e ≤ 1 := by
  unfold budgetAccuracyOf
  split_ifs with h1 h2 h3
  · norm_num
  · have hmax : 0 < max p a := lt_of_lt_of_le h2 (le_max_right p a)
    have hle : |p - a| ≤ max p a := by
      rw [abs_sub_le_iff]
      constructor
      · have : p - a ≤ p := by linarith
        exact le_trans this (le_max_left p a)
      · have : a - p ≤ a := by linarith
        exact le_trans this (le_max_right p a)
    have hq1 : |p - a| / max p a ≤ 1 := (div_le_one hmax).mpr hle
    have hq0 : 0 ≤ |p - a| / max p a := div_nonneg (abs_nonneg _) (le_of_lt hmax)
    constructor <;> linarith
  · norm_num
  · norm_num

theorem budgetAccuracyOf_eq_one (p a t : ℚ) (e : Bool)
    (h : budgetAccuracyOf p a t e = 1) : p = a ∧ 0 < a := by
  unfold budgetAccuracyOf at h
  split_ifs at h with h1 h2 h3
  · norm_num at h
  · have hmax : 0 < max p a := lt_of_lt_of_le h2 (le_max_right p a)
    have hq : |p - a| / max p a = 0 := by linarith
    have habs : |p - a| = 0 := by
      rcases div_eq_zero_iff.mp hq with h0 | h0
      · exact h0
      · exact absurd h0 (ne_of_gt hmax)
    exact ⟨sub_eq_zero.mp (abs_eq_zero.mp habs), h2⟩
  · norm_num at h
  · norm_num at h

theorem peerLabel_requires_samples (c : CategoryInputs) (n : ℕ)
    (hn : (decideRaw c).2.2 = ModelLabel.peerInformed n ∨
      (decideRaw c).2.2 = ModelLabel.peerBased n) :
    ∃ pd, c.peerData = some pd ∧ 3 ≤ pd.peerSamples := by
  simp only [decideRaw] at hn
  by_cases h1 : c.dataPoints < 3
  · rw [if_pos h1] at hn
    rcases hn with h | h <;> cases h
  rw [if_neg h1] at hn
  by_cases h2 : c.accuracy < 1/5
  · rw [if_pos h2] at hn
    rcases hn with h | h <;> cases h
  rw [if_neg h2] at hn
  by_cases h3 : hasPreds c ∧ c.spendingHistAvg > 0 ∧
      |c.spendingHistAvg / c.budgetHistAvg - 1| < 1/50
  · rw [if_pos h3] at hn
    rcases hn with h | h <;> cases h
  rw [if_neg h3] at hn
  by_cases h4 : c.dataPoints < 5 ∧ c.userInClusters = true
  · rw [if_pos h4] at hn
    simp only [peerBranch] at hn
    rcases hpd : c.peerData with _ | pd <;> rw [hpd] at hn
    · rcases hn with h | h <;> cases h
    · by_cases hs3 : 3 ≤ pd.peerSamples
      · exact ⟨pd, rfl, hs3⟩
      · simp [hs3] at hn
  rw [if_neg h4] at hn
  by_cases h5 : hasPreds c ∧ c.accuracy = 1/2
  · rw [if_pos h5] at hn
    split_ifs at hn <;> (rcases hn with h | h <;> cases h)
  rw [if_neg h5] at hn
  by_cases h6 : hasPreds c ∧ c.accuracy > 1/2
  · rw [if_pos h6] at hn
    split_ifs at hn <;> (rcases hn with h | h <;> cases h)
  rw [if_neg h6] at hn
  by_cases h7 : hasPreds c ∧ mlChange c < c.budgetHistAvg * (1/50)
  · rw [if_pos h7] at hn
    rcases hn with h | h <;> cases h
  rw [if_neg h7] at hn
  by_cases h8 : hasPreds c
  · rw [if_pos h8] at hn
    split_ifs at hn <;> (rcases hn with h | h <;> cases h)
  rw [if_neg h8] at hn
  rcases hn with h | h <;> cases h

theorem singleRow_prediction (budgets : List BudgetRow) (spending : List SpendingRow)
    (accounts : List AccountRow) (row : BudgetRow) (u : Bool) (pd : Option PeerRec)
    (lp fp : Option ℚ)
    (hcat : budgets.filter (fun b => b.categoryId == row.categoryId) = [row]) :
    ∃ ci d, categoryInputsOf budgets spending accounts row.categoryId u pd lp fp = some ci ∧
      decideCategoryE ci = .ok d ∧ d.predictedAmount = (row.plannedCents : ℚ) := by
  have hrows : categoryRows budgets spending accounts row.categoryId =
      [featureRow budgets spending accounts row] := by
    unfold categoryRows
    rw [hcat]
    rfl
  have hhist : (sortByStart (budgets.filter (fun b => b.categoryId == row.categoryId))).filter
      (fun b => decide (b.periodStart < row.periodStart)) = [] := by
    rw [hcat]
    simp [sortByStart, insertRow]
  have hfr : histFeaturesOf
      ((sortByStart (budgets.filter (fun b => b.categoryId == row.categoryId))).filter
        (fun b => decide (b.periodStart < row.periodStart)))
      (spending.filter (fun r => r.categoryId == row.categoryId))
      (row.plannedCents : ℚ) = firstPeriodDefaults (row.plannedCents : ℚ) := by
    rw [hhist, histFeaturesOf_nil]
  have hci : categoryInputsOf budgets spending accounts row.categoryId u pd lp fp =
      some (singleRowInputs budgets spending accounts row u pd lp fp) := by
    unfold categoryInputsOf singleRowInputs
    rw [hrows]
    rfl
  have hne : ¬ raisesOnRatioCheck (singleRowInputs budgets spending accounts row u pd lp fp) :=
    fun hr => absurd hr.1 (by norm_num [singleRowInputs])
  obtain ⟨d, hd1, hd2⟩ : ∃ d,
      decideCategoryE (singleRowInputs budgets spending accounts row u pd lp fp) = .ok d ∧
      d.predictedAmount = (row.plannedCents : ℚ) := by
    unfold decideCategoryE
    rw [if_neg hne]
    refine ⟨_, rfl, ?_⟩
    exact (decideRaw_fst_of_lt3 _ (by norm_num [singleRowInputs])).trans
      (congrArg HistFeatures.mean hfr)
  exact ⟨singleRowInputs budgets spending accounts row u pd lp fp, d, hci, hd1, hd2⟩

/-! ### C1: the peer branch with insufficient peer data -/

/-! ### C1: the peer branch with insufficient peer data -/

/-- C1 (amended): a category that reaches the peer branch (branches 1-3
declined, fewer than 5 data points, clustered user) whose resolver result
is absent or has fewer than 3 peer samples gets no decision from the
branch; the per-category initialization (lines 1022-1025) guarantees no
value of a previously processed category can leak in, and the post-branch
safety net - not branch 5 - supplies the result: the historical budget
average, the "Fallback Historical Average" label, and confidence
`base_confidence * 0.6`. -/
theorem peer_branch_insufficient_fallback (c : CategoryInputs)
    (hdp : 3 ≤ c.dataPoints) (hacc : ¬ c.accuracy < 1/5)
    (hnr : ¬ raisesOnRatioCheck c)
    (hnab : ¬ (hasPreds c ∧ 0 < c.spendingHistAvg ∧
      |c.spendingHistAvg / c.budgetHistAvg - 1| < 1/50))
    (hdp5 : c.dataPoints < 5) (hu : c.userInClusters = true)
    (hpeer : ∀ pd, c.peerData = some pd → pd.peerSamples < 3) :
    decideCategoryE c = .ok
      { predictedAmount := c.budgetHistAvg
        predictedCents := pyTrunc c.budgetHistAvg
        confidence := baseConfidence c.dataPoints * (3/5)
        label := .safetyFallback
        trendDirection := classifyTrend c.histTrend } := by
  rw [decideCategoryE_ok_iff]
  refine ⟨hnr, ?_⟩
  have hraw : decideRaw c =
      (c.budgetHistAvg, baseConfidence c.dataPoints * (3/5), .safetyFallback) := by
    simp only [decideRaw]
    rw [if_neg (by omega), if_neg hacc, if_neg hnab, if_pos ⟨hdp5, by simp [hu]⟩]
    unfold peerBranch
    rcases hpd : c.peerData with _ | pd
    · rfl
    · simp only []
      rw [if_neg (by have := hpeer pd hpd; omega)]
  rw [hraw]
  have hclamp : clampConfidence (baseConfidence c.dataPoints * (3/5)) =
      baseConfidence c.dataPoints * (3/5) := by
    apply clampConfidence_eq_self
    · have := baseConfidence_lower c.dataPoints; linarith
    · have := baseConfidence_upper c.dataPoints; linarith
  simp [hclamp]

/-- C1 counterexample: at `peerFallthroughEx` the source's result is the
safety-net fallback (prediction 10000, label "Fallback Historical
Average"), while branch 5 - which the claim says supplies the result -
would have produced the 80/20 neutral-accuracy blend
`10000 * 0.8 + 11000 * 0.2 = 10200` with the "Conservative Ensemble
(neutral accuracy)" label; the two disagree. -/
theorem peer_fallthrough_counterexample :
    (decideCategoryE peerFallthroughEx).toOption.map (fun d => (d.predictedAmount, d.label)) =
      some (10000, ModelLabel.safetyFallback) ∧
    peerFallthroughEx.budgetHistAvg * (4/5) + mlPredicted peerFallthroughEx * (1/5) = 10200 ∧
    mlChange peerFallthroughEx ≤ peerFallthroughEx.budgetHistAvg * (1/2) ∧
    (10000 : ℚ) ≠ 10200 ∧
    ModelLabel.safetyFallback ≠ ModelLabel.conservativeEnsembleNeutral := by
  refine ⟨?_, ?_, ?_, by norm_num, by decide⟩
  · norm_num [peerFallthroughEx, decideCategoryE, raisesOnRatioCheck, decideRaw, hasPreds,
      modelPredList, modelAgreement, mlPredicted, mlChange, accuracyFactor, baseConfidence,
      clampConfidence, pyTrunc, Rat.floor, classifyTrend, min_def, max_def, peerBranch,
      Except.toOption]
  · norm_num [peerFallthroughEx, mlPredicted]
  · norm_num [peerFallthroughEx, mlChange, mlPredicted, hasPreds, modelPredList, abs_of_pos]

/-- C1 witness: the amended fallback conclusion at the concrete
fall-through input. -/
theorem peer_branch_insufficient_fallback_witness :
    decideCategoryE peerFallthroughEx = .ok
      { predictedAmount := peerFallthroughEx.budgetHistAvg
        predictedCents := pyTrunc peerFallthroughEx.budgetHistAvg
        confidence := baseConfidence peerFallthroughEx.dataPoints * (3/5)
        label := .safetyFallback
        trendDirection := classifyTrend peerFallthroughEx.histTrend } :=
  peer_branch_insufficient_fallback peerFallthroughEx
    (by norm_num [peerFallthroughEx])
    (by norm_num [peerFallthroughEx])
    (by simp [raisesOnRatioCheck, peerFallthroughEx])
    (by simp [peerFallthroughEx])
    (by norm_num [peerFallthroughEx])
    (by simp [peerFallthroughEx])
    (by simp [peerFallthroughEx])

/-! ### C2: the accurate-budgeter override -/

/-- C2 counterexample: at the claim's own concrete input the source
predicts `int(max(10000, 9980 * 1.02)) = int(10179.6) = 10179` cents, not
the 10180 cents the claim states. -/
theorem accurate_budgeter_cents_counterexample :
    (decideCategoryE accurateBudgeterEx).toOption.map (fun d => d.predictedCents) =
      some 10179 ∧ (10179 : ℤ) ≠ 10180 := by
  refine ⟨?_, by decide⟩
  norm_num [accurateBudgeterEx, decideCategoryE, raisesOnRatioCheck, decideRaw, hasPreds,
    modelPredList, modelAgreement, mlPredicted, mlChange, accuracyFactor, baseConfidence,
    clampConfidence, pyTrunc, Rat.floor, classifyTrend, min_def, max_def, abs_of_pos,
    Except.toOption]

/-- C2 (amended): whenever a category reaches the accurate-budgeter check
(neither the insufficient-data branch nor the very-low-accuracy branch
fired) with at least one model prediction, positive spending average and
`|spending/budget - 1| < 0.02`, that branch fires before every other
ML branch and yields `predicted = max(budget_avg, spending_avg * 1.02)`
(truncated to cents by `int()`), the "Accurate Budgeter" label, and
confidence `base * accuracy_factor * model_agreement * 0.92` clamped to
[0.1, 0.95]. -/
theorem accurate_budgeter_branch (c : CategoryInputs)
    (hdp : 3 ≤ c.dataPoints) (hacc : ¬ c.accuracy < 1/5)
    (hp : hasPreds c) (hs : 0 < c.spendingHistAvg)
    (hr : |c.spendingHistAvg / c.budgetHistAvg - 1| < 1/50) :
    decideCategoryE c = .ok
      { predictedAmount := max c.budgetHistAvg (c.spendingHistAvg * (51/50))
        predictedCents := pyTrunc (max c.budgetHistAvg (c.spendingHistAvg * (51/50)))
        confidence := clampConfidence
          (baseConfidence c.dataPoints * accuracyFactor c.accuracy * modelAgreement c * (23/25))
        label := .accurateBudgeter
        trendDirection := classifyTrend c.histTrend } ∧
    ∃ rest, ModelLabel.text .accurateBudgeter = "Accurate Budgeter" ++ rest := by
  have hb : c.budgetHistAvg ≠ 0 := by
    intro hb0
    rw [hb0, div_zero] at hr
    norm_num at hr
  have hnr : ¬ raisesOnRatioCheck c := fun hraise => hb hraise.2.2.2.2
  refine ⟨?_, " (spending  budget)", rfl⟩
  rw [decideCategoryE_ok_iff]
  refine ⟨hnr, ?_⟩
  have hraw : decideRaw c =
      (max c.budgetHistAvg (c.spendingHistAvg * (51/50)),
       baseConfidence c.dataPoints * accuracyFactor c.accuracy * modelAgreement c * (23/25),
       .accurateBudgeter) := by
    simp only [decideRaw]
    rw [if_neg (by omega), if_neg hacc, if_pos ⟨hp, hs, hr⟩]
  rw [hraw]

/-- C2 witness: the amended branch conclusion at the claim's concrete
input (budget 10000, spending 9980, one model prediction). -/
theorem accurate_budgeter_branch_witness :
    decideCategoryE accurateBudgeterEx = .ok
      { predictedAmount := max accurateBudgeterEx.budgetHistAvg
          (accurateBudgeterEx.spendingHistAvg * (51/50))
        predictedCents := pyTrunc (max accurateBudgeterEx.budgetHistAvg
          (accurateBudgeterEx.spendingHistAvg * (51/50)))
        confidence := clampConfidence
          (baseConfidence accurateBudgeterEx.dataPoints *
            accuracyFactor accurateBudgeterEx.accuracy *
            modelAgreement accurateBudgeterEx * (23/25))
        label := .accurateBudgeter
        trendDirection := classifyTrend accurateBudgeterEx.histTrend } ∧
    ∃ rest, ModelLabel.text .accurateBudgeter = "Accurate Budgeter" ++ rest :=
  accurate_budgeter_branch accurateBudgeterEx
    (by norm_num [accurateBudgeterEx])
    (by norm_num [accurateBudgeterEx])
    (by simp [hasPreds, modelPredList, accurateBudgeterEx])
    (by norm_num [accurateBudgeterEx])
    (by
      rw [show accurateBudgeterEx.spendingHistAvg / accurateBudgeterEx.budgetHistAvg - 1
          = -(1/500) from by norm_num [accurateBudgeterEx]]
      rw [abs_neg, abs_of_pos] <;> norm_num)

/-! ### C3: confidence always in [0.1, 0.95] -/

/-! ### Concrete inputs used by witnesses and counterexamples -/

/-- C3: every prediction produced by the prediction core has a confidence
score in the closed interval [0.1, 0.95], whatever branch fired and
whatever the values of `base_confidence`, `accuracy_factor` and
`model_agreement` were: the final clamp at line 1212 guarantees it. -/
theorem confidence_always_clamped (cats : List CategoryInputs) (d : Decision)
    (h : d ∈ predictWithML cats) :
    1/10 ≤ d.confidence ∧ d.confidence ≤ 19/20 := by
  unfold predictWithML at h
  rcases hrun : runCategories cats with _ | ds <;> rw [hrun] at h
  · simp at h
  rw [mem_sortByConfidence] at h
  obtain ⟨c, -, hok⟩ := runCategories_ok_mem hrun h
  rw [decideCategoryE_ok_iff] at hok
  rw [hok.2]
  exact ⟨clampConfidence_lower _, clampConfidence_upper _⟩

/-- C3 witness: the bound at a concrete two-category input. -/
theorem confidence_always_clamped_witness :
    1/10 ≤ (Decision.confidence
      { predictedAmount := 10000, predictedCents := 10000, confidence := 93/250,
        label := .safetyFallback, trendDirection := "stable" }) ∧
    (Decision.confidence
      { predictedAmount := 10000, predictedCents := 10000, confidence := 93/250,
        label := .safetyFallback, trendDirection := "stable" }) ≤ 19/20 := by
  apply confidence_always_clamped
    [{ dataPoints := 4, accuracy := 1/2, budgetHistAvg := 10000, spendingHistAvg := 0,
       histTrend := 0, plannedAmounts := [10000, 10000, 10000, 10000],
       linearPred := some 11000, forestPred := none,
       userInClusters := true, peerData := none }]
  norm_num [predictWithML, runCategories, decideCategoryE, raisesOnRatioCheck, decideRaw,
    hasPreds, modelPredList, peerBranch, baseConfidence, clampConfidence, pyTrunc,
    Rat.floor, classifyTrend, sortByConfidence, insertByConfidence]

/-! ### C4: one category exception aborts the whole request -/

/-- C4 (amended): categories are not isolated from each other.  An
exception raised while processing any single category (for example the
accurate-budgeter ratio check dividing by a zero historical budget
average) escapes the category loop and is caught only by the
whole-request handler, which returns the empty prediction list: the other
categories' predictions are lost, although no exception reaches the
caller. -/
theorem category_exception_aborts_request (cats : List CategoryInputs)
    (h : ∃ c ∈ cats, decideCategoryE c = .error ()) :
    predictWithML cats = [] := by
  obtain ⟨c, hc, he⟩ := h
  unfold predictWithML
  rw [runCategories_error_of_mem hc he]

/-- C4 counterexample: the healthy category alone yields a prediction,
but as soon as the request also contains the zero-budget category - whose
processing raises - the whole request collapses to the empty list instead
of returning the healthy category's prediction with the bad one skipped. -/
theorem category_exception_counterexample :
    decideCategoryE zeroBudgetCat = .error () ∧
    decideCategoryE healthyCat = .ok
      { predictedAmount := 4000, predictedCents := 4000, confidence := 69/250,
        label := .histInsufficient 2, trendDirection := "stable" } ∧
    predictWithML [healthyCat, zeroBudgetCat] = [] := by
  have h1 : decideCategoryE zeroBudgetCat = .error () := by
    have hraise : raisesOnRatioCheck zeroBudgetCat :=
      ⟨by norm_num [zeroBudgetCat], by norm_num [zeroBudgetCat],
       by simp [hasPreds, modelPredList, zeroBudgetCat],
       by norm_num [zeroBudgetCat], by norm_num [zeroBudgetCat]⟩
    unfold decideCategoryE
    rw [if_pos hraise]
  have h2 : decideCategoryE healthyCat = .ok
      { predictedAmount := 4000, predictedCents := 4000, confidence := 69/250,
        label := .histInsufficient 2, trendDirection := "stable" } := by
    norm_num [healthyCat, decideCategoryE, raisesOnRatioCheck, decideRaw, hasPreds,
      modelPredList, baseConfidence, clampConfidence, pyTrunc, Rat.floor, classifyTrend,
      min_def, max_def]
  refine ⟨h1, h2, ?_⟩
  unfold predictWithML
  rw [runCategories_error_of_mem (by simp) h1]

/-- C4 witness: the amended statement applied to the concrete two-category
request. -/
theorem category_exception_aborts_request_witness :
    predictWithML [healthyCat, zeroBudgetCat] = [] :=
  category_exception_aborts_request [healthyCat, zeroBudgetCat]
    ⟨zeroBudgetCat, by simp, by
      have hraise : raisesOnRatioCheck zeroBudgetCat :=
        ⟨by norm_num [zeroBudgetCat], by norm_num [zeroBudgetCat],
         by simp [hasPreds, modelPredList, zeroBudgetCat],
         by norm_num [zeroBudgetCat], by norm_num [zeroBudgetCat]⟩
      unfold decideCategoryE
      rw [if_pos hraise]⟩

/-! ### C5: the budget-accuracy feature -/

/-- C5: for every engineered feature vector, `budget_accuracy` lies in
[0, 1]; it is exactly 1 only when the period's planned amount equals the
period's actual spend and that spend is positive; it is the neutral 0.5
when the category has no spending rows at all in the window; and it is
0.7 when the category has spending rows in the window but none dated
inside this exact period.  (Planned amounts are non-negative minor units;
spending rows carry `ABS(amount_cents)` of a strictly negative amount,
hence are positive.) -/
theorem budget_accuracy_spec (budgets : List BudgetRow) (spending : List SpendingRow)
    (accounts : List AccountRow) (row : BudgetRow)
    (hp : 0 ≤ row.plannedCents)
    (hs : ∀ r ∈ spending, 0 < r.spentCents) :
    (0 ≤ (featureRow budgets spending accounts row).budgetAccuracy ∧
      (featureRow budgets spending accounts row).budgetAccuracy ≤ 1) ∧
    ((featureRow budgets spending accounts row).budgetAccuracy = 1 →
      (row.plannedCents : ℚ) = (featureRow budgets spending accounts row).actualSpent ∧
      0 < (featureRow budgets spending accounts row).actualSpent) ∧
    (spending.filter (fun r => r.categoryId == row.categoryId) = [] →
      (featureRow budgets spending accounts row).budgetAccuracy = 1/2) ∧
    (spending.filter (fun r => r.categoryId == row.categoryId) ≠ [] →
      periodSpend (spending.filter (fun r => r.categoryId == row.categoryId))
        row.periodStart row.periodEnd = [] →
      (featureRow budgets spending accounts row).budgetAccuracy = 7/10) := by
  have hmemS : ∀ r ∈ spending.filter (fun r => r.categoryId == row.categoryId),
      0 < r.spentCents := fun r hr => hs r (List.mem_filter.mp hr).1
  have hmemP : ∀ r ∈ periodSpend (spending.filter (fun r => r.categoryId == row.categoryId))
      row.periodStart row.periodEnd, 0 < r.spentCents :=
    fun r hr => hmemS r (List.mem_filter.mp hr).1
  have hacc : (featureRow budgets spending accounts row).budgetAccuracy =
      budgetAccuracyOf (row.plannedCents : ℚ)
        (if spending.filter (fun r => r.categoryId == row.categoryId) = [] then 0
         else ((periodSpend (spending.filter (fun r => r.categoryId == row.categoryId))
            row.periodStart row.periodEnd).map (fun r => (r.spentCents : ℚ))).sum)
        (((spending.filter (fun r => r.categoryId == row.categoryId)).map
            (fun r => (r.spentCents : ℚ))).sum)
        (spending.filter (fun r => r.categoryId == row.categoryId)).isEmpty := rfl
  have hact : (featureRow budgets spending accounts row).actualSpent =
      (if spending.filter (fun r => r.categoryId == row.categoryId) = [] then 0
       else ((periodSpend (spending.filter (fun r => r.categoryId == row.categoryId))
          row.periodStart row.periodEnd).map (fun r => (r.spentCents : ℚ))).sum) := rfl
  have hp' : (0 : ℚ) ≤ (row.plannedCents : ℚ) := by exact_mod_cast hp
  have ha : (0 : ℚ) ≤
      (if spending.filter (fun r => r.categoryId == row.categoryId) = [] then 0
       else ((periodSpend (spending.filter (fun r => r.categoryId == row.categoryId))
          row.periodStart row.periodEnd).map (fun r => (r.spentCents : ℚ))).sum) := by
    split_ifs
    · norm_num
    · apply List.sum_nonneg
      intro x hx
      obtain ⟨r, hr, rfl⟩ := List.mem_map.mp hx
      have := hmemP r hr
      positivity
  refine ⟨?_, ?_, ?_, ?_⟩
  · rw [hacc]
    exact budgetAccuracyOf_bounds _ _ _ _ hp' ha
  · intro h1
    rw [hacc] at h1
    obtain ⟨heq, hpos⟩ := budgetAccuracyOf_eq_one _ _ _ _ h1
    rw [hact]
    exact ⟨heq, hpos⟩
  · intro hempty
    rw [hacc, hempty]
    simp [budgetAccuracyOf]
  · intro hne hps
    rw [hacc]
    have he : (spending.filter (fun r => r.categoryId == row.categoryId)).isEmpty = false := by
      rcases hq : spending.filter (fun r => r.categoryId == row.categoryId) with _ | ⟨x, xs⟩
      · exact absurd hq hne
      · rw [hq]
        rfl
    have hzero : (if spending.filter (fun r => r.categoryId == row.categoryId) = [] then (0:ℚ)
        else ((periodSpend (spending.filter (fun r => r.categoryId == row.categoryId))
          row.periodStart row.periodEnd).map (fun r => (r.spentCents : ℚ))).sum) = 0 := by
      rw [if_neg hne, hps]
      rfl
    have htot : 0 < ((spending.filter (fun r => r.categoryId == row.categoryId)).map
        (fun r => (r.spentCents : ℚ))).sum := by
      apply List.sum_pos
      · intro x hx
        obtain ⟨r, hr, rfl⟩ := List.mem_map.mp hx
        have := hmemS r hr
        positivity
      · simp [hne]
    rw [hzero]
    unfold budgetAccuracyOf
    rw [if_neg (by simp [he]), if_neg (by norm_num), if_pos htot]

/-- C5 witness: the budget-accuracy specification at a concrete window. -/
theorem budget_accuracy_spec_witness :
    (0 ≤ (featureRow [accurateRow] accurateSpending [] accurateRow).budgetAccuracy ∧
      (featureRow [accurateRow] accurateSpending [] accurateRow).budgetAccuracy ≤ 1) ∧
    ((featureRow [accurateRow] accurateSpending [] accurateRow).budgetAccuracy = 1 →
      (accurateRow.plannedCents : ℚ) =
        (featureRow [accurateRow] accurateSpending [] accurateRow).actualSpent ∧
      0 < (featureRow [accurateRow] accurateSpending [] accurateRow).actualSpent) ∧
    (accurateSpending.filter (fun r => r.categoryId == accurateRow.categoryId) = [] →
      (featureRow [accurateRow] accurateSpending [] accurateRow).budgetAccuracy = 1/2) ∧
    (accurateSpending.filter (fun r => r.categoryId == accurateRow.categoryId) ≠ [] →
      periodSpend (accurateSpending.filter (fun r => r.categoryId == accurateRow.categoryId))
        accurateRow.periodStart accurateRow.periodEnd = [] →
      (featureRow [accurateRow] accurateSpending [] accurateRow).budgetAccuracy = 7/10) :=
  budget_accuracy_spec [accurateRow] accurateSpending [] accurateRow
    (by norm_num [accurateRow])
    (by intro r hr; simp [accurateSpending] at hr; rw [hr]; norm_num)

/-! ### C6: the insufficient-data branch -/

/-! ### C6: the insufficient-data branch -/

/-- C6: with fewer than 3 data points for a category, the first branch of
the decision policy fires: the prediction is the historical budget
average (`historical_mean` of the latest row, i.e. the mean of the
category's strictly prior planned amounts), the confidence is exactly
`base_confidence * 0.6` (inside the clamp range, so the clamp is the
identity), and the label is the insufficient-data historical-average
label. -/
theorem insufficient_data_branch (c : CategoryInputs) (h : c.dataPoints < 3) :
    decideCategoryE c = .ok
      { predictedAmount := c.budgetHistAvg
        predictedCents := pyTrunc c.budgetHistAvg
        confidence := baseConfidence c.dataPoints * (3/5)
        label := .histInsufficient c.dataPoints
        trendDirection := classifyTrend c.histTrend } := by
  have hr : ¬ raisesOnRatioCheck c := fun hr => by
    have := hr.1; omega
  rw [decideCategoryE_ok_iff]
  refine ⟨hr, ?_⟩
  have hraw : decideRaw c =
      (c.budgetHistAvg, baseConfidence c.dataPoints * (3/5), .histInsufficient c.dataPoints) := by
    simp only [decideRaw]
    rw [if_pos h]
  rw [hraw]
  have hclamp : clampConfidence (baseConfidence c.dataPoints * (3/5)) =
      baseConfidence c.dataPoints * (3/5) := by
    apply clampConfidence_eq_self
    · have := baseConfidence_lower c.dataPoints; linarith
    · have := baseConfidence_upper c.dataPoints; linarith
  simp [hclamp]

/-- C6 witness: for the two-period category the glue produces exactly
`twoPeriodInputs`, and the insufficient-data branch predicts the
historical average 1200 with confidence `base * 0.6`. -/
theorem insufficient_data_branch_witness :
    categoryInputsOf twoPeriodBudgets [] [] 1 false none none none = some twoPeriodInputs ∧
    twoPeriodInputs.dataPoints < 3 ∧
    decideCategoryE twoPeriodInputs = .ok
      { predictedAmount := twoPeriodInputs.budgetHistAvg
        predictedCents := pyTrunc twoPeriodInputs.budgetHistAvg
        confidence := baseConfidence twoPeriodInputs.dataPoints * (3/5)
        label := .histInsufficient twoPeriodInputs.dataPoints
        trendDirection := classifyTrend twoPeriodInputs.histTrend } := by
  refine ⟨?_, by norm_num [twoPeriodInputs], insufficient_data_branch twoPeriodInputs (by norm_num [twoPeriodInputs])⟩
  norm_num [twoPeriodBudgets, twoPeriodInputs, categoryInputsOf, categoryRows, featureRow,
    sortByStart, insertRow, histFeaturesOf, lastN, periodSpend, budgetAccuracyOf,
    meanQ, listMinQ, listMaxQ, trendSlope, sampleVarQ, List.filter, List.filterMap]

/-! ### C7: what the period-P vector may depend on -/

/-- C7 (amended): the lagged fields of the vector for period P -
`historical_mean`/`std`/`min`/`max`/`trend`/`count`,
`historical_spent_mean`/`count`, the combined mean and the recent-window
mean and trend - depend only on data strictly before P: two runs that
agree on the budget rows starting before P and on the spending dated
before P produce identical lagged fields, provided the prior periods end
before P starts (non-overlapping periods).  The in-period fields
(`actual_spent`, frequency, transaction size, volatility,
`budget_accuracy`) and the account fields do use period-P and
window-wide data by construction, which is what the counterexample
exhibits. -/
theorem lagged_features_noninterference
    (budgets₁ budgets₂ : List BudgetRow) (spending₁ spending₂ : List SpendingRow)
    (accounts₁ accounts₂ : List AccountRow) (row : BudgetRow)
    (hb : budgets₁.filter (fun b => decide (b.periodStart < row.periodStart)) =
          budgets₂.filter (fun b => decide (b.periodStart < row.periodStart)))
    (hs : spending₁.filter (fun r => decide (r.txnDate < row.periodStart)) =
          spending₂.filter (fun r => decide (r.txnDate < row.periodStart)))
    (hnv : ∀ b ∈ budgets₁, b.categoryId = row.categoryId →
        b.periodStart < row.periodStart → b.periodEnd < row.periodStart) :
    histPartOf (featureRow budgets₁ spending₁ accounts₁ row) =
    histPartOf (featureRow budgets₂ spending₂ accounts₂ row) := by
  have e1 : histPartOf (featureRow budgets₁ spending₁ accounts₁ row) =
      histFeaturesOf
        ((sortByStart (budgets₁.filter (fun b => b.categoryId == row.categoryId))).filter
          (fun b => decide (b.periodStart < row.periodStart)))
        (spending₁.filter (fun r => r.categoryId == row.categoryId))
        (row.plannedCents : ℚ) := rfl
  have e2 : histPartOf (featureRow budgets₂ spending₂ accounts₂ row) =
      histFeaturesOf
        ((sortByStart (budgets₂.filter (fun b => b.categoryId == row.categoryId))).filter
          (fun b => decide (b.periodStart < row.periodStart)))
        (spending₂.filter (fun r => r.categoryId == row.categoryId))
        (row.plannedCents : ℚ) := rfl
  have key : ∀ L : List BudgetRow,
      L.filter (fun b => decide (b.periodStart < row.periodStart) &&
        (b.categoryId == row.categoryId)) =
      (L.filter (fun b => decide (b.periodStart < row.periodStart))).filter
        (fun b => b.categoryId == row.categoryId) := by
    intro L
    rw [List.filter_filter]
    apply List.filter_congr
    intro x _
    rw [Bool.and_comm]
  have hhist :
      (sortByStart (budgets₁.filter (fun b => b.categoryId == row.categoryId))).filter
        (fun b => decide (b.periodStart < row.periodStart)) =
      (sortByStart (budgets₂.filter (fun b => b.categoryId == row.categoryId))).filter
        (fun b => decide (b.periodStart < row.periodStart)) := by
    rw [filter_sortByStart, filter_sortByStart]
    rw [List.filter_filter, List.filter_filter, key, key, hb]
  rw [e1, e2, ← hhist]
  set H := (sortByStart (budgets₁.filter (fun b => b.categoryId == row.categoryId))).filter
    (fun b => decide (b.periodStart < row.periodStart)) with hH
  have hmemH : ∀ pr ∈ H, pr.periodEnd < row.periodStart := by
    intro pr hpr
    rw [hH] at hpr
    obtain ⟨hmem1, hbef⟩ := List.mem_filter.mp hpr
    obtain ⟨hmem2, hcat⟩ := List.mem_filter.mp (mem_sortByStart.mp hmem1)
    exact hnv pr hmem2 (by simpa using hcat) (of_decide_eq_true hbef)
  have hps : ∀ pr ∈ H,
      periodSpend (spending₁.filter (fun r => r.categoryId == row.categoryId))
        pr.periodStart pr.periodEnd =
      periodSpend (spending₂.filter (fun r => r.categoryId == row.categoryId))
        pr.periodStart pr.periodEnd := by
    intro pr hpr
    have hpe := hmemH pr hpr
    have key2 : ∀ L : List SpendingRow,
        L.filter (fun r => (decide (pr.periodStart ≤ r.txnDate) &&
            decide (r.txnDate ≤ pr.periodEnd)) && (r.categoryId == row.categoryId)) =
        (L.filter (fun r => decide (r.txnDate < row.periodStart))).filter
          (fun r => (decide (pr.periodStart ≤ r.txnDate) &&
            decide (r.txnDate ≤ pr.periodEnd)) && (r.categoryId == row.categoryId)) := by
      intro L
      rw [List.filter_filter]
      apply List.filter_congr
      intro x _
      by_cases hq : x.txnDate ≤ pr.periodEnd
      · have hlt : x.txnDate < row.periodStart := lt_of_le_of_lt hq hpe
        simp [hlt]
      · simp [hq]
    unfold periodSpend
    rw [List.filter_filter, List.filter_filter, key2 spending₁, key2 spending₂, hs]
  unfold histFeaturesOf
  split_ifs with hHe
  · rfl
  · have hsv : H.filterMap (fun pr =>
        let ps := periodSpend (spending₁.filter (fun r => r.categoryId == row.categoryId))
          pr.periodStart pr.periodEnd
        if ps = [] then none
        else some ((ps.map (fun r => (r.spentCents : ℚ))).sum)) =
      H.filterMap (fun pr =>
        let ps := periodSpend (spending₂.filter (fun r => r.categoryId == row.categoryId))
          pr.periodStart pr.periodEnd
        if ps = [] then none
        else some ((ps.map (fun r => (r.spentCents : ℚ))).sum)) := by
      apply List.filterMap_congr
      intro pr hpr
      rw [hps pr hpr]
    rw [hsv]

/-- C7 counterexample: two runs that agree on every datum dated strictly
before period P (both have no such spending and the identical budget row)
but differ in one transaction dated after P ends produce different
feature vectors for P: `budget_accuracy` flips from the neutral 0.5 to
the partial-evidence 0.7, because the accuracy branch consults the
category's window-wide spending total, not just strictly-prior data. -/
theorem feature_noninterference_counterexample :
    (([] : List SpendingRow).filter (fun r => decide (r.txnDate < periodPRow.periodStart)) =
      [laterTxn].filter (fun r => decide (r.txnDate < periodPRow.periodStart))) ∧
    (featureRow [periodPRow] [] [] periodPRow).budgetAccuracy = 1/2 ∧
    (featureRow [periodPRow] [laterTxn] [] periodPRow).budgetAccuracy = 7/10 ∧
    featureRow [periodPRow] [] [] periodPRow ≠
      featureRow [periodPRow] [laterTxn] [] periodPRow := by
  have h2 : (featureRow [periodPRow] [] [] periodPRow).budgetAccuracy = 1/2 := by
    norm_num [featureRow, periodPRow, budgetAccuracyOf, periodSpend, List.filter]
  have h3 : (featureRow [periodPRow] [laterTxn] [] periodPRow).budgetAccuracy = 7/10 := by
    norm_num [featureRow, periodPRow, laterTxn, budgetAccuracyOf, periodSpend, List.filter]
  refine ⟨by norm_num [laterTxn, periodPRow], h2, h3, ?_⟩
  intro h
  have hcontra := congrArg FeatureVec.budgetAccuracy h
  rw [h2, h3] at hcontra
  norm_num at hcontra

/-- C7 witness: the amended noninterference at a concrete pair of runs
(one prior period; the second run gains a transaction dated after P). -/
theorem lagged_features_noninterference_witness :
    histPartOf (featureRow [priorRow, periodPRow] [] [] periodPRow) =
    histPartOf (featureRow [priorRow, periodPRow] [laterTxn] [] periodPRow) :=
  lagged_features_noninterference [priorRow, periodPRow] [priorRow, periodPRow]
    [] [laterTxn] [] [] periodPRow
    rfl
    (by norm_num [laterTxn, periodPRow])
    (by
      intro b hb hcat hstart
      rcases List.mem_cons.mp hb with rfl | hb
      · norm_num [priorRow, periodPRow]
      · rcases List.mem_cons.mp hb with rfl | hb
        · norm_num [periodPRow] at hstart
        · simp at hb)

/-! ### C8: the minimum-support guard lives in the caller -/

/-- C8 counterexample: with only 2 qualifying peer samples the resolver
returns a fully populated recommendation (`peer_samples = 2 < 3`); the
resolver itself contains no minimum-support guard. -/
theorem peer_resolver_counterexample :
    getPeerRecommendations true [7] twoPeerRows =
      some { avgPeerBudget := 1100, avgPeerSpending := 1000, peerSamples := 2, peerCount := 1 } ∧
    (2 : ℕ) < 3 := by
  refine ⟨?_, by decide⟩
  norm_num [getPeerRecommendations, twoPeerRows, meanQ, List.filter]
  simp

/-- C8 (amended): the resolver returns a populated recommendation for any
positive number of qualifying peer samples (its sample count is exactly
the number of qualifying rows, with no lower bound beyond 1); the
minimum-support rule is enforced by the caller instead: the decision
policy attaches a peer label only when the fetched recommendation has at
least 3 samples. -/
theorem peer_min_support_in_caller (u : Bool) (peers : List ℕ) (rows : List PeerRow)
    (rec : PeerRec) (hrec : getPeerRecommendations u peers rows = some rec)
    (c : CategoryInputs) (d : Decision) (hok : decideCategoryE c = .ok d)
    (hlabel : ∃ n, d.label = .peerInformed n ∨ d.label = .peerBased n) :
    1 ≤ rec.peerSamples ∧
    rec.peerSamples = (rows.filter (fun r => decide (0 < r.plannedCents))).length ∧
    ∃ pd, c.peerData = some pd ∧ 3 ≤ pd.peerSamples := by
  have hqual : 1 ≤ rec.peerSamples ∧
      rec.peerSamples = (rows.filter (fun r => decide (0 < r.plannedCents))).length := by
    simp only [getPeerRecommendations] at hrec
    split_ifs at hrec <;>
      first
        | exact Option.noConfusion hrec
        | (rw [Option.some.injEq] at hrec
           subst hrec
           exact ⟨List.length_pos.mpr (by assumption), rfl⟩)
  refine ⟨hqual.1, hqual.2, ?_⟩
  obtain ⟨-, rfl⟩ := decideCategoryE_ok_iff.mp hok
  obtain ⟨n, hn⟩ := hlabel
  exact peerLabel_requires_samples c n hn

/-- C8 witness: the amended statement at a concrete resolver input with 3
qualifying rows and a concrete category whose decision carries a peer
label. -/
theorem peer_min_support_in_caller_witness :
    1 ≤ (PeerRec.peerSamples
      { avgPeerBudget := 1200, avgPeerSpending := 1100, peerSamples := 3, peerCount := 1 }) ∧
    (PeerRec.peerSamples
      { avgPeerBudget := 1200, avgPeerSpending := 1100, peerSamples := 3, peerCount := 1 }) =
      (threePeerRows.filter (fun r => decide (0 < r.plannedCents))).length ∧
    ∃ pd, peerUsedCat.peerData = some pd ∧ 3 ≤ pd.peerSamples := by
  apply peer_min_support_in_caller true [7] threePeerRows _ ?_ peerUsedCat
    { predictedAmount := 9600, predictedCents := 9600, confidence := 3/5,
      label := .peerInformed 6, trendDirection := "stable" } ?_ ⟨6, Or.inl rfl⟩
  · norm_num [getPeerRecommendations, threePeerRows, meanQ, List.filter]
    simp
  · norm_num [peerUsedCat, decideCategoryE, raisesOnRatioCheck, decideRaw, hasPreds,
      modelPredList, peerBranch, baseConfidence, clampConfidence, pyTrunc, Rat.floor,
      classifyTrend, min_def, max_def]

/-! ### C9: first-period defaults and the single-period prediction -/

/-- C9: for the earliest budget period of a category (no strictly prior
periods), the feature engineer defaults `historical_mean`, `historical_min`,
`historical_max`, `recent_mean` and `historical_combined_mean` to the
period's own planned amount, and `historical_std`, `historical_trend`,
`recent_trend`, `historical_spent_mean` to 0 with `historical_count = 0`;
consequently a category with exactly one budget period gets the
insufficient-data prediction equal to its own planned amount, not zero. -/
theorem first_period_defaults_spec (budgets : List BudgetRow) (spending : List SpendingRow)
    (accounts : List AccountRow) (row : BudgetRow)
    (hnone : budgets.filter
      (fun b => b.categoryId == row.categoryId && decide (b.periodStart < row.periodStart)) = []) :
    ((featureRow budgets spending accounts row).historicalMean = (row.plannedCents : ℚ) ∧
     (featureRow budgets spending accounts row).historicalMin = (row.plannedCents : ℚ) ∧
     (featureRow budgets spending accounts row).historicalMax = (row.plannedCents : ℚ) ∧
     (featureRow budgets spending accounts row).recentMean = (row.plannedCents : ℚ) ∧
     (featureRow budgets spending accounts row).historicalCombinedMean = (row.plannedCents : ℚ) ∧
     (featureRow budgets spending accounts row).historicalStdSq = some 0 ∧
     (featureRow budgets spending accounts row).historicalTrend = 0 ∧
     (featureRow budgets spending accounts row).recentTrend = 0 ∧
     (featureRow budgets spending accounts row).historicalSpentMean = 0 ∧
     (featureRow budgets spending accounts row).historicalCount = 0) ∧
    (∀ (u : Bool) (pd : Option PeerRec) (lp fp : Option ℚ),
      budgets.filter (fun b => b.categoryId == row.categoryId) = [row] →
      ∃ ci d, categoryInputsOf budgets spending accounts row.categoryId u pd lp fp = some ci ∧
        decideCategoryE ci = .ok d ∧ d.predictedAmount = (row.plannedCents : ℚ)) := by
  have hhist : (sortByStart (budgets.filter (fun b => b.categoryId == row.categoryId))).filter
      (fun b => decide (b.periodStart < row.periodStart)) = [] := by
    rw [List.filter_eq_nil_iff]
    intro b hb
    obtain ⟨hmem, hcatb⟩ := List.mem_filter.mp (mem_sortByStart.mp hb)
    have hforall := List.filter_eq_nil_iff.mp hnone b hmem
    intro hbef
    exact hforall (by rw [Bool.and_eq_true]; exact ⟨hcatb, hbef⟩)
  have hfr : histFeaturesOf
      ((sortByStart (budgets.filter (fun b => b.categoryId == row.categoryId))).filter
        (fun b => decide (b.periodStart < row.periodStart)))
      (spending.filter (fun r => r.categoryId == row.categoryId))
      (row.plannedCents : ℚ) = firstPeriodDefaults (row.plannedCents : ℚ) := by
    rw [hhist, histFeaturesOf_nil]
  exact ⟨⟨congrArg HistFeatures.mean hfr, congrArg HistFeatures.histMin hfr,
    congrArg HistFeatures.histMax hfr, congrArg HistFeatures.recentMean hfr,
    congrArg HistFeatures.combinedMean hfr, congrArg HistFeatures.stdSq hfr,
    congrArg HistFeatures.trend hfr, congrArg HistFeatures.recentTrend hfr,
    congrArg HistFeatures.spentMean hfr, congrArg HistFeatures.count hfr⟩,
    fun u pd lp fp hcat => singleRow_prediction budgets spending accounts row u pd lp fp hcat⟩

/-- C9 witness: the first-period defaults and the single-period prediction
at the concrete one-period category. -/
theorem first_period_defaults_spec_witness :
    ((featureRow [soloRow] [] [] soloRow).historicalMean = (soloRow.plannedCents : ℚ) ∧
     (featureRow [soloRow] [] [] soloRow).historicalMin = (soloRow.plannedCents : ℚ) ∧
     (featureRow [soloRow] [] [] soloRow).historicalMax = (soloRow.plannedCents : ℚ) ∧
     (featureRow [soloRow] [] [] soloRow).recentMean = (soloRow.plannedCents : ℚ) ∧
     (featureRow [soloRow] [] [] soloRow).historicalCombinedMean = (soloRow.plannedCents : ℚ) ∧
     (featureRow [soloRow] [] [] soloRow).historicalStdSq = some 0 ∧
     (featureRow [soloRow] [] [] soloRow).historicalTrend = 0 ∧
     (featureRow [soloRow] [] [] soloRow).recentTrend = 0 ∧
     (featureRow [soloRow] [] [] soloRow).historicalSpentMean = 0 ∧
     (featureRow [soloRow] [] [] soloRow).historicalCount = 0) ∧
    (∃ ci d, categoryInputsOf [soloRow] [] [] soloRow.categoryId false none none none = some ci ∧
      decideCategoryE ci = .ok d ∧ d.predictedAmount = (soloRow.plannedCents : ℚ)) := by
  have h := first_period_defaults_spec [soloRow] [] [] soloRow
    (by norm_num [soloRow, List.filter])
  exact ⟨h.1, h.2 false none none none (by norm_num [soloRow, List.filter])⟩

/-! ### C10: trend-direction classification -/

/-! ### C10: trend-direction classification -/

/-- C10: in every prediction the core produces, `trend_direction` is
"increasing" exactly when the category's historical trend slope exceeds
100 minor currency units per period, "decreasing" exactly when it is
below -100, and "stable" otherwise (slopes of exactly plus or minus 100
included). -/
theorem trendDirection_classification (c : CategoryInputs) (d : Decision)
    (h : decideCategoryE c = .ok d) :
    (d.trendDirection = "increasing" ↔ 100 < c.histTrend) ∧
    (d.trendDirection = "decreasing" ↔ c.histTrend < -100) ∧
    (d.trendDirection = "stable" ↔ -100 ≤ c.histTrend ∧ c.histTrend ≤ 100) := by
  obtain ⟨-, rfl⟩ := decideCategoryE_ok_iff.mp h
  show (classifyTrend c.histTrend = "increasing" ↔ _) ∧
    (classifyTrend c.histTrend = "decreasing" ↔ _) ∧
    (classifyTrend c.histTrend = "stable" ↔ _)
  unfold classifyTrend
  split_ifs with h1 h2
  · exact ⟨iff_of_true rfl h1,
      iff_of_false (by decide) (by linarith),
      iff_of_false (by decide) (by rintro ⟨-, hh⟩; linarith)⟩
  · exact ⟨iff_of_false (by decide) h1,
      iff_of_true rfl h2,
      iff_of_false (by decide) (by rintro ⟨hh, -⟩; linarith)⟩
  · exact ⟨iff_of_false (by decide) h1,
      iff_of_false (by decide) h2,
      iff_of_true rfl ⟨by linarith, by linarith⟩⟩

/-- C10 witness: at slope 150 the classification test is settled
concretely. -/
theorem trendDirection_classification_witness :
    ((Decision.trendDirection
        { predictedAmount := 1000, predictedCents := 1000, confidence := 57/250,
          label := .histInsufficient 1, trendDirection := "increasing" }) = "increasing"
      ↔ 100 < trendExInputs.histTrend) ∧
    ((Decision.trendDirection
        { predictedAmount := 1000, predictedCents := 1000, confidence := 57/250,
          label := .histInsufficient 1, trendDirection := "increasing" }) = "decreasing"
      ↔ trendExInputs.histTrend < -100) ∧
    ((Decision.trendDirection
        { predictedAmount := 1000, predictedCents := 1000, confidence := 57/250,
          label := .histInsufficient 1, trendDirection := "increasing" }) = "stable"
      ↔ -100 ≤ trendExInputs.histTrend ∧ trendExInputs.histTrend ≤ 100) := by
  apply trendDirection_classification trendExInputs
  norm_num [trendExInputs, decideCategoryE, raisesOnRatioCheck, decideRaw, hasPreds,
    modelPredList, baseConfidence, clampConfidence, pyTrunc, Rat.floor, classifyTrend,
    min_def, max_def]
